import Mathlib

/-!
Shallow embedding of the lead-nurture core: the Engagement Scoring Engine
(`EngagementScoringEngine.js`) and the Stage Transition Engine
(`StageTransitionEngine.js`).  JS numbers are modelled as rationals,
`Math.round` as `jsRound` (round half toward +∞), timestamps as rational
milliseconds since the epoch, and the database as an explicit `EngineState`
threaded through the stateful operations.
-/

/-- JS `Math.round`: round half toward positive infinity. -/
def jsRound (q : ℚ) : ℤ := ⌊q + 1/2⌋

/-- Scoring configuration (`defaultScoringRules` shape). -/
structure ScoringRules where
  login_points : ℚ
  email_open_points : ℚ
  email_click_points : ℚ
  whatsapp_reply_points : ℚ
  chatbot_interaction_points : ℚ
  email_engagement_multiplier : ℚ
  repeat_engagement_decay : ℚ
  time_decay_factor : ℚ
  engaged_lead_threshold : ℚ
  qualified_lead_threshold : ℚ
  customer_threshold : ℚ
  high_value_action_bonus : ℚ
  first_time_bonus : ℚ
  consecutive_days_bonus : ℚ
  recent_activity_window : ℚ
  engagement_window : ℚ
  decay_start_hours : ℚ
  deriving DecidableEq

/-- The built-in default scoring rules of the engine's constructor. -/
def defaultScoringRules : ScoringRules :=
  { login_points := 10
    email_open_points := 5
    email_click_points := 15
    whatsapp_reply_points := 20
    chatbot_interaction_points := 10
    email_engagement_multiplier := 1
    repeat_engagement_decay := 4/5
    time_decay_factor := 19/20
    engaged_lead_threshold := 50
    qualified_lead_threshold := 150
    customer_threshold := 300
    high_value_action_bonus := 1/2
    first_time_bonus := 6/5
    consecutive_days_bonus := 1/10
    recent_activity_window := 24
    engagement_window := 168
    decay_start_hours := 72 }

/-- Recognized optional keys of an event's metadata map. -/
structure EventMetadata where
  high_value_action : Bool := false
  conversion : Bool := false
  deriving DecidableEq

/-- An engagement event; `timestamp` is in milliseconds. -/
structure EngagementEvent where
  event_type : String
  channel : String
  timestamp : ℚ
  metadata : EventMetadata := {}
  score_impact : ℤ := 0
  deriving DecidableEq

/-- `calculateEventScore`: base points by event type (falling back to the
event's stored `score_impact`), times the email channel multiplier, rounded. -/
def calculateEventScore (event : EngagementEvent) (rules : ScoringRules) : ℤ :=
  let base : ℚ :=
    if event.event_type = "login" then rules.login_points
    else if event.event_type = "email_open" then rules.email_open_points
    else if event.event_type = "email_click" then rules.email_click_points
    else if event.event_type = "whatsapp_reply" then rules.whatsapp_reply_points
    else if event.event_type = "chatbot_interaction" then rules.chatbot_interaction_points
    else (event.score_impact : ℚ)
  let base := if event.channel = "email" then base * rules.email_engagement_multiplier else base
  jsRound base

/-- `applyTimeDecay`: no decay while the event age in hours is at most
`decay_start_hours`; beyond that multiply by `time_decay_factor ^ ⌊days⌋`. -/
def applyTimeDecay (eventScore : ℤ) (eventTimestamp : ℚ) (rules : ScoringRules) (now : ℚ) : ℤ :=
  let hoursAgo := (now - eventTimestamp) / 3600000
  if hoursAgo ≤ rules.decay_start_hours then eventScore
  else
    let daysOld : ℤ := ⌊hoursAgo / 24⌋
    jsRound ((eventScore : ℚ) * rules.time_decay_factor ^ daysOld)

/-- Calendar-day index of a timestamp (midnight truncation). -/
def dayIndex (t : ℚ) : ℤ := ⌊t / 86400000⌋

/-- The backward walk of `calculateConsecutiveDays` (up to 30 days back). -/
def consecutiveLoop (eventHistory : List EngagementEvent) : ℕ → ℤ → ℕ → ℕ
  | 0, _, acc => acc
  | fuel + 1, checkDay, acc =>
    if eventHistory.any (fun e => dayIndex e.timestamp = checkDay) then
      consecutiveLoop eventHistory fuel (checkDay - 1) (acc + 1)
    else acc

/-- `calculateConsecutiveDays`: 1 plus the number of consecutive calendar days
immediately before the event's day that contain at least one history event. -/
def calculateConsecutiveDays (currentEvent : EngagementEvent)
    (eventHistory : List EngagementEvent) : ℕ :=
  consecutiveLoop eventHistory 30 (dayIndex currentEvent.timestamp - 1) 1

/-- The value of the local `bonusMultiplier` in `applyEngagementBonuses` just
before the repeat-engagement-decay step: 1, plus `high_value_action_bonus` for
a high-value action, plus `first_time_bonus - 1` when no strictly earlier
history event shares the event type, plus the capped consecutive-days bonus. -/
def bonusMultiplierBeforeRepeatDecay (event : EngagementEvent)
    (eventHistory : List EngagementEvent) (rules : ScoringRules) : ℚ :=
  let m : ℚ := 1
  let m := if event.metadata.high_value_action then m + rules.high_value_action_bonus else m
  let previousSameTypeEvents := eventHistory.filter (fun e =>
    e.event_type = event.event_type ∧ e.timestamp < event.timestamp)
  let m := if previousSameTypeEvents.length = 0 then m + (rules.first_time_bonus - 1) else m
  let consecutiveDays := calculateConsecutiveDays event eventHistory
  if consecutiveDays > 1 then
    m + min ((consecutiveDays : ℚ) * rules.consecutive_days_bonus) 1
  else m

/-- The local `sameTypeCount` of `applyEngagementBonuses`: how many history
events share the current event's `event_type`. -/
def sameTypeCount (event : EngagementEvent) (eventHistory : List EngagementEvent) : ℕ :=
  (eventHistory.filter (fun e => e.event_type = event.event_type)).length

/-- The final value of the local `bonusMultiplier` in `applyEngagementBonuses`:
when more than one history event shares the event type (`sameTypeCount > 1`),
the multiplier is additionally scaled by
`repeat_engagement_decay ^ (sameTypeCount - 1)`. -/
def bonusMultiplier (event : EngagementEvent) (eventHistory : List EngagementEvent)
    (rules : ScoringRules) : ℚ :=
  let m := bonusMultiplierBeforeRepeatDecay event eventHistory rules
  if sameTypeCount event eventHistory > 1 then
    m * rules.repeat_engagement_decay ^ (sameTypeCount event eventHistory - 1)
  else m

/-- `applyEngagementBonuses`: the decayed score times the bonus multiplier,
rounded. -/
def applyEngagementBonuses (eventScore : ℤ) (event : EngagementEvent)
    (eventHistory : List EngagementEvent) (rules : ScoringRules) : ℤ :=
  jsRound ((eventScore : ℚ) * bonusMultiplier event eventHistory rules)

/-- The per-event pipeline of `calculateLeadScore`'s loop:
base score, then time decay, then engagement bonuses. -/
def perEventScore (event : EngagementEvent) (eventHistory : List EngagementEvent)
    (rules : ScoringRules) (now : ℚ) : ℤ :=
  applyEngagementBonuses
    (applyTimeDecay (calculateEventScore event rules) event.timestamp rules now)
    event eventHistory rules

/-- The fold of `calculateLeadScore` over the ascending event list, threading
the already-processed prefix as each event's history (`events.slice(0, i)`). -/
def scoreEvents (rules : ScoringRules) (now : ℚ) :
    List EngagementEvent → List EngagementEvent → ℤ
  | _, [] => 0
  | hist, e :: rest =>
    perEventScore e hist rules now + scoreEvents rules now (hist ++ [e]) rest

/-- Result of `calculateLeadScore` (observability breakdown omitted). -/
structure ScoreResult where
  total_score : ℤ
  event_count : ℕ
  recent_events : ℕ
  deriving DecidableEq

/-- `calculateLeadScore`: keep the events inside the engagement window
(the SQL `timestamp >= cutoff` filter; the input list stands for the lead's
ascending-by-timestamp event stream), sum the per-event scores where each
event's history is the strictly earlier prefix, add the capped recent-activity
bonus, and floor the rounded total at 0. -/
def calculateLeadScore (allEvents : List EngagementEvent) (rules : ScoringRules)
    (now : ℚ) : ScoreResult :=
  let cutoff := now - rules.engagement_window * 3600000
  let events := allEvents.filter (fun e => cutoff ≤ e.timestamp)
  let total := scoreEvents rules now [] events
  let recentEvents := events.filter (fun e =>
    (now - e.timestamp) / 3600000 ≤ rules.recent_activity_window)
  let recentActivityBonus : ℤ :=
    if recentEvents.length > 0 then min (5 * (recentEvents.length : ℤ)) 50 else 0
  { total_score := max 0 (total + recentActivityBonus)
    event_count := events.length
    recent_events := recentEvents.length }

/-- `getRecommendedStage`: pure threshold classifier over the score. -/
def getRecommendedStage (score : ℚ) (scoringRules : ScoringRules) : String :=
  if score ≥ scoringRules.customer_threshold then "Customer"
  else if score ≥ scoringRules.qualified_lead_threshold then "Qualified_Lead"
  else if score ≥ scoringRules.engaged_lead_threshold then "Engaged_Lead"
  else "User"

/-- Position of a stage in the funnel order `User < Engaged_Lead <
Qualified_Lead < Customer`. -/
def stageRank (stage : String) : ℕ :=
  if stage = "User" then 0
  else if stage = "Engaged_Lead" then 1
  else if stage = "Qualified_Lead" then 2
  else if stage = "Customer" then 3
  else 0

/-!  ## Stage Transition Engine  -/

/-- The own keys of the adjacency object `this.validTransitions` of the
engine's constructor, as a lookup on the stage name (`none`: no own entry).
The full JS property-read semantics, including the `Object.prototype` chain a
plain object literal inherits, is `validTransitionsProp` below. -/
def validTransitionsFor (stage : String) : Option (List String) :=
  if stage = "User" then some ["Engaged_Lead"]
  else if stage = "Engaged_Lead" then some ["Qualified_Lead", "User"]
  else if stage = "Qualified_Lead" then some ["Customer", "Engaged_Lead"]
  else if stage = "Customer" then some []
  else none

/-- `isValidTransition`: false when the from-stage has no adjacency entry,
otherwise membership of the to-stage in the entry's list. -/
def isValidTransition (fromStage toStage : String) : Bool :=
  match validTransitionsFor fromStage with
  | none => false
  | some l => l.contains toStage

/-- `getNextStages`: the adjacency entry, or `[]` for an unknown stage. -/
def getNextStages (currentStage : String) : List String :=
  (validTransitionsFor currentStage).getD []

/-- The error JS throws inside these lookups. -/
inductive JsError where
  | typeError
  deriving DecidableEq

/-- A value produced by the JS property read `this.validTransitions[stage]`:
an own array entry, a truthy non-array value inherited from
`Object.prototype`, or `undefined`. -/
inductive JsPropValue where
  | arr (stages : List String)
  | inherited
  | undefinedVal
  deriving DecidableEq

/-- The property names a plain object literal inherits from
`Object.prototype`; reading any of them yields a truthy non-array value. -/
def objectPrototypeProps : List String :=
  ["constructor", "hasOwnProperty", "isPrototypeOf", "propertyIsEnumerable",
   "toLocaleString", "toString", "valueOf", "__proto__",
   "__defineGetter__", "__defineSetter__", "__lookupGetter__", "__lookupSetter__"]

/-- The full JS semantics of `this.validTransitions[stage]`: an own key
shadows the prototype; an `Object.prototype` property name yields the truthy
inherited value; any other key reads `undefined`. -/
def validTransitionsProp (stage : String) : JsPropValue :=
  match validTransitionsFor stage with
  | some l => .arr l
  | none => if stage ∈ objectPrototypeProps then .inherited else .undefinedVal

/-- `isValidTransition` under full JS object semantics: `undefined` is falsy,
so the guard returns false; an own array entry answers `.includes(toStage)`;
a truthy inherited non-array passes the guard and then throws a TypeError at
the `.includes` call. -/
def isValidTransitionJs (fromStage toStage : String) : Except JsError Bool :=
  match validTransitionsProp fromStage with
  | .undefinedVal => .ok false
  | .arr l => .ok (l.contains toStage)
  | .inherited => .error .typeError

/-- `getNextStages` under full JS object semantics:
`this.validTransitions[currentStage] || []` — `undefined` falls back to the
empty array, but a truthy inherited value is returned as-is. -/
def getNextStagesJs (currentStage : String) : JsPropValue :=
  match validTransitionsProp currentStage with
  | .undefinedVal => .arr []
  | v => v

/-- The lead row fields owned by the engines. -/
structure Lead where
  id : ℕ
  stage : String
  engagement_score : ℤ
  product_id : ℕ := 0
  deriving DecidableEq

/-- A row of `engagement_events`. -/
structure StoredEvent where
  lead_id : ℕ
  event : EngagementEvent
  deriving DecidableEq

/-- A row of `stage_transitions`; `forced` models the `forced_transition`
metadata flag written by `forceTransition`. -/
structure StageTransitionRecord where
  lead_id : ℕ
  from_stage : String
  to_stage : String
  trigger_reason : String
  forced : Bool
  deriving DecidableEq

/-- The store visible to the transition engine: the `leads` table, the
append-only `stage_transitions` audit table, and the `engagement_events`
table. -/
structure EngineState where
  leads : List Lead
  transitions : List StageTransitionRecord
  events : List StoredEvent
  deriving DecidableEq

/-- `Lead.findById`. -/
def findLead (st : EngineState) (leadId : ℕ) : Option Lead :=
  st.leads.find? (fun l => l.id == leadId)

/-- Update the stage column of one lead row. -/
def setLeadStage (st : EngineState) (leadId : ℕ) (newStage : String) : EngineState :=
  { st with leads := st.leads.map (fun l => if l.id == leadId then { l with stage := newStage } else l) }

/-- The errors thrown by the transition engine. -/
inductive EngineError where
  | leadNotFound
  | invalidTransition (fromStage toStage : String)
  deriving DecidableEq

/-- The success payload of `executeTransition` / `forceTransition`. -/
structure TransitionResult where
  leadId : ℕ
  oldStage : String
  newStage : String
  reason : String
  deriving DecidableEq

/-- `executeTransition`: look up the lead, reject with an invalid-transition
error unless `isValidTransition(oldStage, newStage)`, otherwise atomically set
the stage and append exactly one audit record.  The returned state is the
post-call store; on error it is the input store unchanged (the throw happens
before the transaction, or the transaction rolls back). -/
def executeTransition (st : EngineState) (leadId : ℕ) (newStage reason : String) :
    Except EngineError TransitionResult × EngineState :=
  match findLead st leadId with
  | none => (.error .leadNotFound, st)
  | some lead =>
    if isValidTransition lead.stage newStage then
      (.ok { leadId := leadId, oldStage := lead.stage, newStage := newStage, reason := reason },
       { setLeadStage st leadId newStage with
          transitions := st.transitions ++
            [{ lead_id := leadId, from_stage := lead.stage, to_stage := newStage,
               trigger_reason := reason, forced := false }] })
    else (.error (.invalidTransition lead.stage newStage), st)

/-- `forceTransition`: the same atomic write path with the adjacency
validation bypassed; the audit record carries the forced flag. -/
def forceTransition (st : EngineState) (leadId : ℕ) (newStage reason : String) :
    Except EngineError TransitionResult × EngineState :=
  match findLead st leadId with
  | none => (.error .leadNotFound, st)
  | some lead =>
    (.ok { leadId := leadId, oldStage := lead.stage, newStage := newStage, reason := reason },
     { setLeadStage st leadId newStage with
        transitions := st.transitions ++
          [{ lead_id := leadId, from_stage := lead.stage, to_stage := newStage,
             trigger_reason := reason, forced := true }] })

/-- The conditions object of a progression rule; `none` models an absent
(`undefined`) key. -/
structure ProgressionConditions where
  min_engagement_score : Option ℤ := none
  min_events : Option ℕ := none
  time_window_hours : Option ℚ := none
  conversion_event : Bool := false
  required_event_types : Option (List String) := none
  deriving DecidableEq

/-- One progression rule `{to, conditions}`. -/
structure ProgressionRule where
  toStage : String
  conditions : ProgressionConditions
  deriving DecidableEq

/-- The constructor's `defaultRules` object, as a lookup on the stage name. -/
def defaultRuleFor (stage : String) : Option ProgressionRule :=
  if stage = "User" then
    some { toStage := "Engaged_Lead",
           conditions := { min_engagement_score := some 50, min_events := some 3,
                           time_window_hours := some 168 } }
  else if stage = "Engaged_Lead" then
    some { toStage := "Qualified_Lead",
           conditions := { min_engagement_score := some 150, min_events := some 8,
                           time_window_hours := some 336 } }
  else if stage = "Qualified_Lead" then
    some { toStage := "Customer",
           conditions := { min_engagement_score := some 300, conversion_event := true } }
  else none

/-- JS `conditions.min_events || 1` (0 and undefined are falsy). -/
def minEventsOr1 (c : ProgressionConditions) : ℕ :=
  match c.min_events with
  | none => 1
  | some 0 => 1
  | some n => n

/-- The `met` flag computed by `evaluateConditions`: every present condition
is checked independently and the results are AND-combined (the per-condition
details object is observational and omitted here). -/
def evaluateConditions (lead : Lead) (events : List EngagementEvent)
    (c : ProgressionConditions) (now : ℚ) : Bool :=
  let scoreMet := match c.min_engagement_score with
    | none => true
    | some t => decide (t ≤ lead.engagement_score)
  let eventsMet := match c.min_events with
    | none => true
    | some n => decide (n ≤ events.length)
  let timeWindowMet := match c.time_window_hours with
    | none => true
    | some hrs =>
      let cutoffTime := now - hrs * 3600000
      let recentEvents := events.filter (fun e => cutoffTime ≤ e.timestamp)
      decide (minEventsOr1 c ≤ recentEvents.length)
  let conversionMet :=
    if c.conversion_event then events.any (fun e => e.metadata.conversion) else true
  let typesMet := match c.required_event_types with
    | none => true
    | some req => (req.filter (fun ty => !(events.map (·.event_type)).contains ty)).isEmpty
  scoreMet && eventsMet && timeWindowMet && conversionMet && typesMet

/-- The outcome of `evaluateProgression` (evaluation details omitted). -/
structure ProgressionEval where
  canProgress : Bool
  nextStage : Option String
  deriving DecidableEq

/-- The lead's engagement events (`getLeadEvents`). -/
def getLeadEvents (st : EngineState) (leadId : ℕ) : List EngagementEvent :=
  (st.events.filter (fun se => se.lead_id == leadId)).map (·.event)

/-- `evaluateProgression`: throws for an unknown lead; with no rule configured
for the current stage yields `canProgress = false` (not an error); otherwise
evaluates the rule's conditions.  `rulesFor` is the progression-rule table
(product-specific or `defaultRuleFor`). -/
def evaluateProgression (st : EngineState) (leadId : ℕ)
    (rulesFor : String → Option ProgressionRule) (now : ℚ) :
    Except EngineError ProgressionEval :=
  match findLead st leadId with
  | none => .error .leadNotFound
  | some lead =>
    match rulesFor lead.stage with
    | none => .ok { canProgress := false, nextStage := none }
    | some rule =>
      .ok { canProgress := evaluateConditions lead (getLeadEvents st leadId) rule.conditions now,
            nextStage := some rule.toStage }

/-- The discriminated result of `autoProgressLead`. -/
structure AutoProgressResult where
  progressed : Bool
  oldStage : Option String := none
  newStage : Option String := none
  deriving DecidableEq

/-- `autoProgressLead`: evaluate progression and, only if eligible, execute
the transition; the not-eligible case is a non-error result. -/
def autoProgressLead (st : EngineState) (leadId : ℕ)
    (rulesFor : String → Option ProgressionRule) (now : ℚ) :
    Except EngineError AutoProgressResult × EngineState :=
  match evaluateProgression st leadId rulesFor now with
  | .error e => (.error e, st)
  | .ok ev =>
    if ev.canProgress then
      match executeTransition st leadId (ev.nextStage.getD "")
          "Auto-progression based on engagement criteria" with
      | (.error e, st') => (.error e, st')
      | (.ok r, st') =>
        (.ok { progressed := true, oldStage := some r.oldStage, newStage := some r.newStage }, st')
    else (.ok { progressed := false }, st)

/-- One entry of the `batchAutoProgress` result array. -/
structure BatchEntry where
  leadId : ℕ
  progressed : Bool
  errorMsg : Option EngineError := none
  deriving DecidableEq

/-- `batchAutoProgress`: process the lead ids sequentially, threading the
store state; a thrown per-lead error becomes a `{leadId, progressed:false,
error}` entry and the batch continues. -/
def batchAutoProgress (st : EngineState) (leadIds : List ℕ)
    (rulesFor : String → Option ProgressionRule) (now : ℚ) :
    List BatchEntry × EngineState :=
  match leadIds with
  | [] => ([], st)
  | leadId :: rest =>
    match autoProgressLead st leadId rulesFor now with
    | (.error e, st') =>
      let r := batchAutoProgress st' rest rulesFor now
      ({ leadId := leadId, progressed := false, errorMsg := some e } :: r.1, r.2)
    | (.ok res, st') =>
      let r := batchAutoProgress st' rest rulesFor now
      ({ leadId := leadId, progressed := res.progressed } :: r.1, r.2)

/-!  ## Claim theorems  -/

lemma jsRound_eq_of (q : ℚ) (n : ℤ) (h₁ : (n : ℚ) ≤ q + 1/2) (h₂ : q + 1/2 < (n : ℚ) + 1) :
    jsRound q = n := by
  unfold jsRound
  rw [Int.floor_eq_iff]
  exact ⟨by exact_mod_cast h₁, by linarith⟩

/-- C2: `Customer` is a terminal state: `isValidTransition "Customer" s` is
false for every stage value `s`, and `getNextStages "Customer"` is the empty
list, so no validated transition ever leaves the `Customer` stage. -/
theorem customer_stage_terminal :
    (∀ s, isValidTransition "Customer" s = false) ∧ getNextStages "Customer" = [] := by
  refine ⟨fun s => ?_, rfl⟩
  rfl

/-- C10 counterexample: `this.validTransitions` is a plain object literal, so
the from-stage `"constructor"` — not one of the four stage keys — reads a
truthy value inherited from `Object.prototype`: `isValidTransition` reaches
`.includes` on a non-array and throws a TypeError, and `getNextStages`
returns the inherited value instead of `[]`, refuting totality over arbitrary
string inputs. -/
theorem unknown_stage_prototype_cex :
    isValidTransitionJs "constructor" "Customer" = .error .typeError
    ∧ getNextStagesJs "constructor" = .inherited := by
  constructor <;> rfl

/-- C10 amended: the operations are total exactly off the prototype chain —
for every from-stage that is neither one of the four stage keys nor an
`Object.prototype` property name, `isValidTransition` returns false for every
target without throwing and `getNextStages` returns `[]`; at an inherited
property name, `isValidTransition` throws a TypeError and `getNextStages`
returns the truthy inherited non-array value. -/
theorem unknown_stage_total_amended :
    (∀ s t : String,
        s ∉ (["User", "Engaged_Lead", "Qualified_Lead", "Customer"] : List String) →
        s ∉ objectPrototypeProps →
        isValidTransitionJs s t = .ok false ∧ getNextStagesJs s = .arr [])
    ∧ (∀ s t : String, s ∈ objectPrototypeProps →
        isValidTransitionJs s t = .error .typeError
        ∧ getNextStagesJs s = .inherited) := by
  constructor
  · intro s t hs hp
    simp only [List.mem_cons, List.not_mem_nil, not_or, or_false] at hs
    obtain ⟨h1, h2, h3, h4⟩ := hs
    have hv : validTransitionsFor s = none := by
      unfold validTransitionsFor
      rw [if_neg h1, if_neg h2, if_neg h3, if_neg h4]
    have hprop : validTransitionsProp s = .undefinedVal := by
      unfold validTransitionsProp
      rw [hv, if_neg hp]
    exact ⟨by unfold isValidTransitionJs; rw [hprop],
           by unfold getNextStagesJs; rw [hprop]⟩
  · intro s t hp
    have hv : validTransitionsFor s = none := by
      fin_cases hp <;> rfl
    have hprop : validTransitionsProp s = .inherited := by
      unfold validTransitionsProp
      rw [hv, if_pos hp]
    exact ⟨by unfold isValidTransitionJs; rw [hprop],
           by unfold getNextStagesJs; rw [hprop]⟩

/-- Witness for C10 (amended): the genuinely unknown stage `"Prospect"` is
rejected cleanly, while the inherited name `"toString"` throws. -/
theorem unknown_stage_total_amended_witness :
    (isValidTransitionJs "Prospect" "Customer" = .ok false
      ∧ getNextStagesJs "Prospect" = .arr [])
    ∧ (isValidTransitionJs "toString" "Customer" = .error .typeError
      ∧ getNextStagesJs "toString" = .inherited) :=
  ⟨unknown_stage_total_amended.1 "Prospect" "Customer" (by decide) (by decide),
   unknown_stage_total_amended.2 "toString" "Customer" (by decide)⟩

/-- C3: with "now" held fixed, `calculateLeadScore` is deterministic (two
runs on the same event history and rules give the same result) and its total
score is a non-negative integer. -/
theorem calculateLeadScore_deterministic_nonneg (events : List EngagementEvent)
    (rules : ScoringRules) (now : ℚ) :
    calculateLeadScore events rules now = calculateLeadScore events rules now
    ∧ 0 ≤ (calculateLeadScore events rules now).total_score := by
  refine ⟨rfl, ?_⟩
  unfold calculateLeadScore
  exact le_max_left 0 _

/-- C9: `getRecommendedStage` is total — it always returns one of the four
funnel stages — and monotone in the score with respect to the funnel order
`User < Engaged_Lead < Qualified_Lead < Customer`, for every rule set. -/
theorem getRecommendedStage_total_monotone (rules : ScoringRules) (s1 s2 : ℚ)
    (h : s1 ≤ s2) :
    getRecommendedStage s1 rules
        ∈ (["User", "Engaged_Lead", "Qualified_Lead", "Customer"] : List String)
    ∧ stageRank (getRecommendedStage s1 rules) ≤ stageRank (getRecommendedStage s2 rules) := by
  constructor
  · unfold getRecommendedStage
    split_ifs <;> simp
  · unfold getRecommendedStage
    split_ifs <;> first | decide | linarith

/-- Witness for C9 at scores 30 ≤ 200 under the default rules. -/
theorem getRecommendedStage_total_monotone_witness :
    getRecommendedStage 30 defaultScoringRules
        ∈ (["User", "Engaged_Lead", "Qualified_Lead", "Customer"] : List String)
    ∧ stageRank (getRecommendedStage 30 defaultScoringRules)
        ≤ stageRank (getRecommendedStage 200 defaultScoringRules) :=
  getRecommendedStage_total_monotone defaultScoringRules 30 200 (by norm_num)

/-- C1: for an existing lead, `executeTransition` succeeds if and only if
`isValidTransition(currentStage, newStage)`; when the transition is invalid
the call is rejected with an invalid-transition error and the store —
including the lead's stage and the audit-record set — is left exactly
unchanged. -/
theorem executeTransition_success_iff (st : EngineState) (leadId : ℕ) (lead : Lead)
    (newStage reason : String) (h : findLead st leadId = some lead) :
    ((∃ r, (executeTransition st leadId newStage reason).1 = .ok r)
      ↔ isValidTransition lead.stage newStage = true)
    ∧ (isValidTransition lead.stage newStage = false →
        executeTransition st leadId newStage reason
          = (.error (.invalidTransition lead.stage newStage), st)) := by
  by_cases hv : isValidTransition lead.stage newStage = true
  · have hok : (executeTransition st leadId newStage reason).1
        = .ok { leadId := leadId, oldStage := lead.stage, newStage := newStage,
                reason := reason } := by
      unfold executeTransition
      rw [h]
      simp only [hv, if_true]
    exact ⟨⟨fun _ => hv, fun _ => ⟨_, hok⟩⟩, fun hf => by rw [hv] at hf; cases hf⟩
  · rw [Bool.not_eq_true] at hv
    have herr : executeTransition st leadId newStage reason
        = (.error (.invalidTransition lead.stage newStage), st) := by
      unfold executeTransition
      rw [h]
      simp only [hv, Bool.false_eq_true, if_false]
    refine ⟨⟨fun ⟨r, hr⟩ => ?_, fun ht => by rw [ht] at hv; cases hv⟩, fun _ => herr⟩
    rw [herr] at hr
    cases hr

/-- Witness for C1: a lead in stage `User` cannot be moved to `Customer`;
the call is rejected and the store is unchanged. -/
theorem executeTransition_success_iff_witness :
    executeTransition
        { leads := [{ id := 1, stage := "User", engagement_score := 0 }],
          transitions := [], events := [] } 1 "Customer" "manual"
      = (.error (.invalidTransition "User" "Customer"),
         { leads := [{ id := 1, stage := "User", engagement_score := 0 }],
           transitions := [], events := [] }) :=
  (executeTransition_success_iff
      { leads := [{ id := 1, stage := "User", engagement_score := 0 }],
        transitions := [], events := [] } 1
      { id := 1, stage := "User", engagement_score := 0 } "Customer" "manual" rfl).2 rfl

/-- No self-loop appears in the adjacency table. -/
lemma isValidTransition_cases (s t : String) (h : isValidTransition s t = true) :
    s = "User" ∧ t = "Engaged_Lead"
    ∨ s = "Engaged_Lead" ∧ (t = "Qualified_Lead" ∨ t = "User")
    ∨ s = "Qualified_Lead" ∧ (t = "Customer" ∨ t = "Engaged_Lead") := by
  unfold isValidTransition validTransitionsFor at h
  by_cases h1 : s = "User"
  · subst h1; simp at h; exact Or.inl ⟨rfl, h⟩
  by_cases h2 : s = "Engaged_Lead"
  · subst h2; simp [h1] at h; exact Or.inr (Or.inl ⟨rfl, h⟩)
  by_cases h3 : s = "Qualified_Lead"
  · subst h3; simp [h1, h2] at h; exact Or.inr (Or.inr ⟨rfl, h⟩)
  by_cases h4 : s = "Customer"
  · subst h4; simp [h1, h2, h3] at h
  · rw [if_neg h1, if_neg h2, if_neg h3, if_neg h4] at h; cases h

lemma isValidTransition_ne (s t : String) (h : isValidTransition s t = true) : s ≠ t := by
  rcases isValidTransition_cases s t h with ⟨hs, ht⟩ | ⟨hs, ht | ht⟩ | ⟨hs, ht | ht⟩ <;>
    subst hs <;> subst ht <;> decide

lemma executeTransition_ok_append (st : EngineState) (leadId : ℕ) (newStage reason : String)
    (res : TransitionResult) (st' : EngineState)
    (h : executeTransition st leadId newStage reason = (.ok res, st')) :
    ∃ rec, st'.transitions = st.transitions ++ [rec] ∧ rec.from_stage ≠ rec.to_stage := by
  unfold executeTransition at h
  cases hf : findLead st leadId with
  | none => rw [hf] at h; simp at h
  | some lead =>
    rw [hf] at h
    by_cases hv : isValidTransition lead.stage newStage = true
    · simp only [hv, if_true] at h
      rw [Prod.mk.injEq] at h
      refine ⟨{ lead_id := leadId, from_stage := lead.stage, to_stage := newStage,
                trigger_reason := reason, forced := false }, ?_, ?_⟩
      · rw [← h.2]
      · exact isValidTransition_ne lead.stage newStage hv
    · simp only [hv] at h
      simp at h

lemma forceTransition_ok_append (st : EngineState) (leadId : ℕ) (newStage reason : String)
    (res : TransitionResult) (st' : EngineState)
    (h : forceTransition st leadId newStage reason = (.ok res, st')) :
    ∃ rec, st'.transitions = st.transitions ++ [rec] := by
  unfold forceTransition at h
  cases hf : findLead st leadId with
  | none => rw [hf] at h; simp at h
  | some lead =>
    rw [hf] at h
    rw [Prod.mk.injEq] at h
    exact ⟨{ lead_id := leadId, from_stage := lead.stage, to_stage := newStage,
             trigger_reason := reason, forced := true }, by rw [← h.2]⟩

/-- C7 counterexample: `forceTransition` bypasses adjacency validation, so
forcing a lead to its current stage appends an audit record with
`from_stage = to_stage`, refuting the claim that no engine write ever
produces such a record. -/
theorem forceTransition_self_loop_cex :
    ((forceTransition
        { leads := [{ id := 1, stage := "User", engagement_score := 0 }],
          transitions := [], events := [] } 1 "User" "admin override").2.transitions.map
      (fun rec => (rec.from_stage, rec.to_stage))) = [("User", "User")] := rfl

/-- C7 amended: every record appended by `executeTransition` (and hence by
`autoProgressLead`) satisfies `from_stage ≠ to_stage`, and each successful
stage change appends exactly one record; `forceTransition` also appends
exactly one record per call, but — bypassing validation — it may write a
record whose from-stage equals its to-stage. -/
theorem audit_records_invariant :
    (∀ st leadId newStage reason res st',
        executeTransition st leadId newStage reason = (.ok res, st') →
        ∃ rec, st'.transitions = st.transitions ++ [rec] ∧ rec.from_stage ≠ rec.to_stage)
    ∧ (∀ st leadId rulesFor now res st',
        autoProgressLead st leadId rulesFor now = (.ok res, st') →
        (res.progressed = true →
          ∃ rec, st'.transitions = st.transitions ++ [rec] ∧ rec.from_stage ≠ rec.to_stage)
        ∧ (res.progressed = false → st' = st))
    ∧ (∀ st leadId newStage reason res st',
        forceTransition st leadId newStage reason = (.ok res, st') →
        ∃ rec, st'.transitions = st.transitions ++ [rec]) := by
  refine ⟨executeTransition_ok_append, ?_, forceTransition_ok_append⟩
  intro st leadId rulesFor now res st' h
  unfold autoProgressLead at h
  cases he : evaluateProgression st leadId rulesFor now with
  | error e => rw [he] at h; simp at h
  | ok ev =>
    rw [he] at h
    by_cases hc : ev.canProgress = true
    · simp only [hc, if_true] at h
      rcases hxe : executeTransition st leadId (ev.nextStage.getD "")
          "Auto-progression based on engagement criteria" with ⟨er | r, st2⟩
      · rw [hxe] at h; simp at h
      · rw [hxe] at h
        rw [Prod.mk.injEq] at h
        obtain ⟨hres, hst⟩ := h
        injection hres with hres
        constructor
        · intro _
          subst hst
          exact executeTransition_ok_append st leadId _ _ r st2 hxe
        · intro hp
          rw [← hres] at hp
          simp at hp
    · simp only [hc] at h
      simp at h
      exact ⟨fun hp => by rw [← h.1] at hp; simp at hp, fun _ => h.2.symm⟩

/-- Witness for C7: a valid `User → Engaged_Lead` transition appends exactly
one audit record with distinct from/to stages. -/
theorem audit_records_invariant_witness :
    ∃ rec,
      ((executeTransition
          { leads := [{ id := 1, stage := "User", engagement_score := 0 }],
            transitions := [], events := [] } 1 "Engaged_Lead" "manual").2).transitions
        = ({ leads := [{ id := 1, stage := "User", engagement_score := 0 }],
             transitions := [], events := [] } : EngineState).transitions ++ [rec]
      ∧ rec.from_stage ≠ rec.to_stage :=
  audit_records_invariant.1 _ 1 "Engaged_Lead" "manual" _ _ rfl

lemma executeTransition_error_state (st : EngineState) (leadId : ℕ) (newStage reason : String)
    (e : EngineError) (h : (executeTransition st leadId newStage reason).1 = .error e) :
    (executeTransition st leadId newStage reason).2 = st := by
  unfold executeTransition at h ⊢
  cases hf : findLead st leadId with
  | none => simp only [hf]
  | some lead =>
    simp only [hf] at h ⊢
    by_cases hv : isValidTransition lead.stage newStage = true
    · simp only [hv, if_true] at h
      exact absurd h (by simp)
    · simp only [hv, Bool.false_eq_true, if_false] at h ⊢

lemma autoProgressLead_error_state (st : EngineState) (leadId : ℕ)
    (rulesFor : String → Option ProgressionRule) (now : ℚ) (e : EngineError)
    (h : (autoProgressLead st leadId rulesFor now).1 = .error e) :
    (autoProgressLead st leadId rulesFor now).2 = st := by
  unfold autoProgressLead at h ⊢
  cases he : evaluateProgression st leadId rulesFor now with
  | error e' => simp only [he]
  | ok ev =>
    simp only [he] at h ⊢
    by_cases hc : ev.canProgress = true
    · simp only [hc, if_true] at h ⊢
      rcases hxe : executeTransition st leadId (ev.nextStage.getD "")
          "Auto-progression based on engagement criteria" with ⟨er | r, st2⟩
      · simp only [hxe] at h ⊢
        have := executeTransition_error_state st leadId (ev.nextStage.getD "")
          "Auto-progression based on engagement criteria" er (by rw [hxe])
        rw [hxe] at this
        exact this
      · simp only [hxe] at h
        exact absurd h (by simp)
    · simp only [hc, Bool.false_eq_true, if_false] at h ⊢

lemma batchAutoProgress_map_leadId (rulesFor : String → Option ProgressionRule) (now : ℚ) :
    ∀ (leadIds : List ℕ) (st : EngineState),
      (batchAutoProgress st leadIds rulesFor now).1.map (fun b => b.leadId) = leadIds := by
  intro leadIds
  induction leadIds with
  | nil => intro st; rfl
  | cons x rest ih =>
    intro st
    unfold batchAutoProgress
    rcases hap : autoProgressLead st x rulesFor now with ⟨er | r, apst⟩ <;>
      simp [hap, ih]

/-- C8 counterexample: with a duplicated input id the result array carries the
same lead id twice, refuting "no duplicate lead ids in the results" for
arbitrary inputs. -/
theorem batchAutoProgress_duplicate_cex :
    ¬ (((batchAutoProgress { leads := [], transitions := [], events := [] } [1, 1]
          defaultRuleFor 0).1.map (fun b => b.leadId)).Nodup) := by
  have hmap : (batchAutoProgress { leads := [], transitions := [], events := [] } [1, 1]
      defaultRuleFor 0).1.map (fun b => b.leadId) = [1, 1] := rfl
  rw [hmap]
  decide

/-- C8 amended: `batchAutoProgress` returns exactly one result per input id,
index-aligned (entry `i` carries input id `i`), so the results carry no
duplicate lead ids whenever the input list has none; a lead whose processing
throws yields a `{leadId, progressed := false, error}` entry while the rest of
the batch is still processed (from the unchanged store state). -/
theorem batchAutoProgress_aligned (rulesFor : String → Option ProgressionRule) (now : ℚ) :
    (∀ st leadIds,
      (batchAutoProgress st leadIds rulesFor now).1.map (fun b => b.leadId) = leadIds)
    ∧ (∀ st leadIds,
        (batchAutoProgress st leadIds rulesFor now).1.length = leadIds.length)
    ∧ (∀ (st : EngineState) (leadIds : List ℕ), leadIds.Nodup →
        ((batchAutoProgress st leadIds rulesFor now).1.map (fun b => b.leadId)).Nodup)
    ∧ (∀ st leadId rest e, (autoProgressLead st leadId rulesFor now).1 = .error e →
        (batchAutoProgress st (leadId :: rest) rulesFor now).1
          = { leadId := leadId, progressed := false, errorMsg := some e }
              :: (batchAutoProgress st rest rulesFor now).1) := by
  refine ⟨fun st leadIds => batchAutoProgress_map_leadId rulesFor now leadIds st,
    fun st leadIds => ?_, fun st leadIds h => ?_, fun st leadId rest e h => ?_⟩
  · have := congrArg List.length (batchAutoProgress_map_leadId rulesFor now leadIds st)
    rwa [List.length_map] at this
  · rwa [batchAutoProgress_map_leadId rulesFor now leadIds st]
  · have hst := autoProgressLead_error_state st leadId rulesFor now e h
    rcases hap : autoProgressLead st leadId rulesFor now with ⟨er | r, apst⟩
    · rw [hap] at h hst
      simp only at h hst
      injection h with h2
      subst h2
      subst hst
      conv_lhs => rw [batchAutoProgress]
      rw [hap]
    · rw [hap] at h
      simp at h

/-- Witness for C8: a two-id batch over an empty store is index-aligned with
no duplicate ids, and the first lead's lead-not-found error is isolated into
its own entry without blocking the second lead's result. -/
theorem batchAutoProgress_aligned_witness :
    (((batchAutoProgress { leads := [], transitions := [], events := [] } [1, 2]
        defaultRuleFor 0).1.map (fun b => b.leadId)).Nodup)
    ∧ (batchAutoProgress { leads := [], transitions := [], events := [] } [1, 2]
        defaultRuleFor 0).1
      = { leadId := 1, progressed := false, errorMsg := some .leadNotFound }
          :: (batchAutoProgress { leads := [], transitions := [], events := [] } [2]
              defaultRuleFor 0).1 :=
  ⟨(batchAutoProgress_aligned defaultRuleFor 0).2.2.1 _ [1, 2] (by decide),
   (batchAutoProgress_aligned defaultRuleFor 0).2.2.2 _ 1 [2] .leadNotFound rfl⟩

lemma floor_eq_of (q : ℚ) (n : ℤ) (h₁ : (n : ℚ) ≤ q) (h₂ : q < (n : ℚ) + 1) : ⌊q⌋ = n := by
  rw [Int.floor_eq_iff]
  exact ⟨by exact_mod_cast h₁, h₂⟩

/-- C4 counterexample: an event with exactly one strictly earlier event of the
same type (N = 1) receives no repeat decay at all — its bonus multiplier is 1,
not scaled by `repeat_engagement_decay ^ 1 = 4/5` as the claim requires (all
other bonuses are inactive at this input). -/
theorem repeat_decay_cex :
    bonusMultiplier { event_type := "login", channel := "product", timestamp := 3600000 }
        [{ event_type := "login", channel := "product", timestamp := 0 }]
        defaultScoringRules = 1
    ∧ (defaultScoringRules.repeat_engagement_decay ^ 1 : ℚ) ≠ 1 := by
  constructor
  · have hd0 : dayIndex 0 = 0 := by unfold dayIndex; apply floor_eq_of <;> norm_num
    have hd1 : dayIndex 3600000 = 0 := by unfold dayIndex; apply floor_eq_of <;> norm_num
    norm_num [bonusMultiplier, bonusMultiplierBeforeRepeatDecay, sameTypeCount,
      calculateConsecutiveDays, consecutiveLoop, hd0, hd1, defaultScoringRules]
  · norm_num [defaultScoringRules]

/-- C4 amended: the repeat-engagement decay fires only from the second prior
same-type event on — for N ≥ 2 history events of the event's type the bonus
multiplier is the pre-decay multiplier times `repeat_engagement_decay ^ (N-1)`,
and for N ≤ 1 (in particular the second occurrence of a type, N = 1) no repeat
decay is applied. -/
theorem repeat_decay_factor (event : EngagementEvent) (eventHistory : List EngagementEvent)
    (rules : ScoringRules) :
    (2 ≤ sameTypeCount event eventHistory →
      bonusMultiplier event eventHistory rules
        = bonusMultiplierBeforeRepeatDecay event eventHistory rules
            * rules.repeat_engagement_decay ^ (sameTypeCount event eventHistory - 1))
    ∧ (sameTypeCount event eventHistory ≤ 1 →
      bonusMultiplier event eventHistory rules
        = bonusMultiplierBeforeRepeatDecay event eventHistory rules) := by
  constructor <;> intro h
  · simp only [bonusMultiplier]
    rw [if_pos (by omega)]
  · simp only [bonusMultiplier]
    rw [if_neg (by omega)]

/-- Witness for C4 (amended) at N = 2 prior `login` events. -/
theorem repeat_decay_factor_witness :
    bonusMultiplier { event_type := "login", channel := "product", timestamp := 2 }
        [{ event_type := "login", channel := "product", timestamp := 0 },
         { event_type := "login", channel := "product", timestamp := 1 }]
        defaultScoringRules
      = bonusMultiplierBeforeRepeatDecay
          { event_type := "login", channel := "product", timestamp := 2 }
          [{ event_type := "login", channel := "product", timestamp := 0 },
           { event_type := "login", channel := "product", timestamp := 1 }]
          defaultScoringRules
        * defaultScoringRules.repeat_engagement_decay
            ^ (sameTypeCount { event_type := "login", channel := "product", timestamp := 2 }
                [{ event_type := "login", channel := "product", timestamp := 0 },
                 { event_type := "login", channel := "product", timestamp := 1 }] - 1) :=
  (repeat_decay_factor _ _ _).1 (by decide)

lemma filter_conj_length_zero {α : Type} (l : List α) (P Q : α → Prop)
    [DecidablePred P] [DecidablePred Q]
    (h : (l.filter (fun a => decide (P a))).length = 0) :
    (l.filter (fun a => decide (P a ∧ Q a))).length = 0 := by
  rw [List.length_eq_zero, List.filter_eq_nil_iff] at h ⊢
  intro a ha hd
  rw [decide_eq_true_eq] at hd
  exact h a ha (decide_eq_true hd.1)

/-- C5 counterexample: for a first-of-its-type high-value event the code adds
the two bonuses into one multiplier (1 + 0.5 + 0.2 = 1.7, per-event score 17),
whereas the claimed multiplicative composition
`round(decayed × (1 + high_value_action_bonus) × first_time_bonus)`
(= round(10 × 1.5 × 1.2)) gives 18. -/
theorem bonus_additive_cex :
    applyEngagementBonuses 10
        { event_type := "login", channel := "product", timestamp := 0,
          metadata := { high_value_action := true } } [] defaultScoringRules = 17
    ∧ jsRound ((10 : ℚ) * ((1 + defaultScoringRules.high_value_action_bonus)
        * defaultScoringRules.first_time_bonus)) = 18 := by
  constructor
  · norm_num [applyEngagementBonuses, bonusMultiplier, bonusMultiplierBeforeRepeatDecay,
      sameTypeCount, calculateConsecutiveDays, consecutiveLoop, defaultScoringRules]
    apply jsRound_eq_of <;> norm_num
  · have h18 : (10 : ℚ) * ((1 + defaultScoringRules.high_value_action_bonus)
        * defaultScoringRules.first_time_bonus) = 18 := by norm_num [defaultScoringRules]
    rw [h18]
    apply jsRound_eq_of <;> norm_num

/-- C5 amended: for an event with `high_value_action` true, no prior event of
its `event_type`, and no consecutive-day bonus in play, the per-event score is
`round(decayedScore × (1 + high_value_action_bonus + (first_time_bonus − 1)))`
— the high-value and first-time contributions are summed into one additive
multiplier, not multiplied together. -/
theorem high_value_first_time_additive (score : ℤ) (event : EngagementEvent)
    (eventHistory : List EngagementEvent) (rules : ScoringRules)
    (hhv : event.metadata.high_value_action = true)
    (hn : sameTypeCount event eventHistory = 0)
    (hcd : calculateConsecutiveDays event eventHistory ≤ 1) :
    applyEngagementBonuses score event eventHistory rules
      = jsRound ((score : ℚ)
          * (1 + rules.high_value_action_bonus + (rules.first_time_bonus - 1))) := by
  have hprev : (eventHistory.filter (fun e =>
      decide (e.event_type = event.event_type ∧ e.timestamp < event.timestamp))).length = 0 :=
    filter_conj_length_zero eventHistory
      (fun e => e.event_type = event.event_type) (fun e => e.timestamp < event.timestamp) hn
  simp only [applyEngagementBonuses, bonusMultiplier, bonusMultiplierBeforeRepeatDecay]
  rw [if_neg (by omega : ¬ sameTypeCount event eventHistory > 1)]
  rw [if_neg (by omega : ¬ calculateConsecutiveDays event eventHistory > 1)]
  rw [if_pos hprev, if_pos hhv]

/-- Witness for C5 (amended) at decayed score 10 with the default rules. -/
theorem high_value_first_time_additive_witness :
    applyEngagementBonuses 10
        { event_type := "login", channel := "product", timestamp := 0,
          metadata := { high_value_action := true } } [] defaultScoringRules
      = jsRound ((10 : ℚ) * (1 + defaultScoringRules.high_value_action_bonus
          + (defaultScoringRules.first_time_bonus - 1))) :=
  high_value_first_time_additive 10 _ [] defaultScoringRules rfl (by decide) (by decide)

lemma perEventScore_login_nodecay (ev : EngagementEvent) (now : ℚ)
    (hty : ev.event_type = "login") (hhv : ev.metadata.high_value_action = false)
    (hage : (now - ev.timestamp) / 3600000 ≤ 72) :
    perEventScore ev [] defaultScoringRules now = 12 := by
  have hbase : calculateEventScore ev defaultScoringRules = 10 := by
    simp [calculateEventScore, hty, defaultScoringRules]
    apply jsRound_eq_of <;> norm_num
  have hdecay : applyTimeDecay 10 ev.timestamp defaultScoringRules now = 10 := by
    simp only [applyTimeDecay]
    rw [if_pos (show (now - ev.timestamp) / 3600000 ≤ defaultScoringRules.decay_start_hours
      from hage)]
  have hbonus : applyEngagementBonuses 10 ev [] defaultScoringRules = 12 := by
    norm_num [applyEngagementBonuses, bonusMultiplier, bonusMultiplierBeforeRepeatDecay,
      sameTypeCount, calculateConsecutiveDays, consecutiveLoop, hhv, defaultScoringRules]
    apply jsRound_eq_of <;> norm_num
  simp only [perEventScore]
  rw [hbase, hdecay, hbonus]

/-- Total score of a one-`login`-event history inside the decay-free window:
12, plus the 5-point recent-activity bonus when within the recent window. -/
lemma single_login_total (ev : EngagementEvent) (now : ℚ)
    (hty : ev.event_type = "login") (hhv : ev.metadata.high_value_action = false)
    (hage : (now - ev.timestamp) / 3600000 ≤ 72) :
    (calculateLeadScore [ev] defaultScoringRules now).total_score
      = if (now - ev.timestamp) / 3600000 ≤ 24 then 17 else 12 := by
  have hper := perEventScore_login_nodecay ev now hty hhv hage
  have hwin : now - defaultScoringRules.engagement_window * 3600000 ≤ ev.timestamp := by
    rw [div_le_iff₀ (by norm_num : (0:ℚ) < 3600000)] at hage
    have h2 : defaultScoringRules.engagement_window * 3600000 = 604800000 := by
      norm_num [defaultScoringRules]
    rw [h2]
    linarith
  simp only [calculateLeadScore, List.filter_cons, List.filter_nil, decide_eq_true_eq]
  rw [if_pos hwin]
  simp only [List.filter_cons, List.filter_nil, decide_eq_true_eq]
  by_cases hr : (now - ev.timestamp) / 3600000 ≤ 24
  · rw [if_pos (show (now - ev.timestamp) / 3600000
        ≤ defaultScoringRules.recent_activity_window from hr), if_pos hr]
    simp only [scoreEvents, List.nil_append]
    rw [hper]
    norm_num
  · rw [if_neg (show ¬ (now - ev.timestamp) / 3600000
        ≤ defaultScoringRules.recent_activity_window from hr), if_neg hr]
    simp only [scoreEvents, List.nil_append]
    rw [hper]
    norm_num

/-- C6 counterexample: a single fresh `login` event (age 48 h, inside the
decay-free window but outside the 24 h recent-activity window) scores 12 under
the default rules — the first-time bonus makes it `round(10 × 1.2) = 12`, not
the claimed 10. -/
theorem single_login_score_cex :
    (calculateLeadScore [{ event_type := "login", channel := "product", timestamp := 0 }]
        defaultScoringRules 172800000).total_score = 12 ∧ (12 : ℤ) ≠ 10 := by
  refine ⟨?_, by decide⟩
  rw [single_login_total _ 172800000 rfl rfl (by norm_num)]
  norm_num

/-- C6 amended: under the default rules a lead whose fetched history is exactly
one `login` event (not high-value) scores 12 when the event's age is within
the decay-free window but beyond the 24 h recent-activity window
(first-time bonus: `round(10 × 1.2) = 12`), and 17 when the age is within the
recent-activity window (12 plus the 5-point recent-activity bonus) — not 10. -/
theorem single_login_score (ev : EngagementEvent) (now : ℚ)
    (hty : ev.event_type = "login")
    (hhv : ev.metadata.high_value_action = false) :
    ((now - ev.timestamp) / 3600000 ≤ 24 →
      (calculateLeadScore [ev] defaultScoringRules now).total_score = 17)
    ∧ (24 < (now - ev.timestamp) / 3600000 →
      (now - ev.timestamp) / 3600000 ≤ 72 →
      (calculateLeadScore [ev] defaultScoringRules now).total_score = 12) := by
  constructor
  · intro hr
    rw [single_login_total ev now hty hhv (le_trans hr (by norm_num)), if_pos hr]
  · intro hgt hage
    rw [single_login_total ev now hty hhv hage, if_neg (not_le.mpr hgt)]

/-- Witness for C6 (amended): a one-hour-old login scores 17. -/
theorem single_login_score_witness :
    (calculateLeadScore [{ event_type := "login", channel := "product", timestamp := 0 }]
        defaultScoringRules 3600000).total_score = 17 :=
  (single_login_score _ 3600000 rfl rfl).1 (by norm_num)
